import Mathlib

/-!
Verification development for the Event Loop Visualizer.

The development shallowly embeds the core of the visualizer:
* the data model (`Task`, `CallStackFrame`, `WebApiTask`, `EngineState`),
* the text parser `parseCode` (from `utils/parser.ts`), including the
  regex recognizers modelled as character-list scanners with the same
  leftmost-match and lazy/greedy behaviour as the source regexes,
* the engine single-step transition `stepE` (the `step` callback in
  `App.tsx`) and the timer advancer `tick` (the Web API timer effect).

JavaScript strings are modelled as `List Char`; the module-level
mutable id counter of the parser is threaded explicitly; `Date.now()`
and the random part of the microtask id are oracle parameters of the
step function (they never influence control flow).
-/

namespace ELV

/-- The `TaskType` enum of the source. -/
inductive TaskType where
  | LOG
  | TIMEOUT
  | PROMISE
  | MAIN
deriving DecidableEq

/-- The `Task` interface: id, type, content, optional delay, optional
children (the callback body; an *empty* body is still `some []`, matching
a present-but-empty array, which is truthy in JS), optional source line. -/
inductive Task where
  | mk (id : String) (type : TaskType) (content : String)
       (delay : Option Nat) (children : Option (List Task)) (line : Option Nat)

def Task.id : Task → String
  | .mk v _ _ _ _ _ => v

def Task.type : Task → TaskType
  | .mk _ v _ _ _ _ => v

def Task.content : Task → String
  | .mk _ _ v _ _ _ => v

def Task.delay : Task → Option Nat
  | .mk _ _ _ v _ _ => v

def Task.children : Task → Option (List Task)
  | .mk _ _ _ _ v _ => v

def Task.line : Task → Option Nat
  | .mk _ _ _ _ _ v => v

/-- `{...task, content: c}` — copy a task, replacing only `content`. -/
def Task.withContent : Task → String → Task
  | .mk i t _ d c l, s => .mk i t s d c l

/-- The `CallStackFrame` interface.  In the source `linesOfCode` and
`currentLineIndex` are optional but every constructed frame sets them
(and `![]` is falsy-free: an empty array is truthy), so they are modelled
as total fields. -/
structure CallStackFrame where
  id : String
  name : String
  type : TaskType
  linesOfCode : List Task
  currentLineIndex : Nat
  highlightLine : Option Nat

/-- `WebApiTask extends Task` — modelled as a task plus the two timer
fields (`startTime = Date.now()` at registration, `remainingTime`). -/
structure WebApiTask where
  task : Task
  startTime : Nat
  remainingTime : Int

/-- The `EngineState` interface, fields in source order. -/
structure EngineState where
  code : String
  parsedTasks : List Task
  callStack : List CallStackFrame
  webApis : List WebApiTask
  microtaskQueue : List Task
  macrotaskQueue : List Task
  consoleOutput : List String
  isRunning : Bool
  speed : Nat
  isFinished : Bool
  activeLine : Option Nat

/-! ## Character-level utilities (JS string operations) -/

/-- JS whitespace (the characters relevant to `trim` and `\s`). -/
def isWSChar (c : Char) : Bool :=
  c = ' ' || c = '\t' || c = '\n' || c = '\r' || c = Char.ofNat 11 || c = Char.ofNat 12

/-- `String.prototype.trim`. -/
def trimJS (l : List Char) : List Char :=
  ((l.dropWhile isWSChar).reverse.dropWhile isWSChar).reverse

/-- `code.split('\n')`. -/
def splitLines : List Char → List (List Char)
  | [] => [[]]
  | c :: rest =>
    if c = '\n' then [] :: splitLines rest
    else
      match splitLines rest with
      | [] => [[c]]
      | h :: t => (c :: h) :: t

/-- `s.startsWith(p)` on character lists. -/
def startsWithL : List Char → List Char → Bool
  | _, [] => true
  | [], _ :: _ => false
  | c :: cs, p :: ps => c = p && startsWithL cs ps

/-- `s.includes(p)` on character lists. -/
def containsSub : List Char → List Char → Bool
  | [], pat => startsWithL [] pat
  | c :: rest, pat => startsWithL (c :: rest) pat || containsSub rest pat

/-- `s.includes(c)` for a single character. -/
def containsChar (l : List Char) (c : Char) : Bool :=
  l.any (fun d => d = c)

/-- Skip a run of whitespace (`\s*` in the source regexes; the `\s*`
tokens are followed by non-whitespace literals, so greedy skipping is
exact). -/
def skipWSL (l : List Char) : List Char := l.dropWhile isWSChar

def openBraceC : Char := Char.ofNat 123

def closeBraceC : Char := Char.ofNat 125

def slashC : Char := '/'

/-! ## The regex recognizers of `parseCode` -/

def logHead : List Char := ("console.log(").toList

/-- The quote alternatives of `(['"`])`. -/
def quoteChars : List Char := [Char.ofNat 39, '"', Char.ofNat 96]

/-- The lazy `(.+?)\1\)` part of the log regex: consume at least one
character, stopping at the first position followed by the opening quote
and a closing parenthesis. -/
def scanLogBody (q : Char) : List Char → List Char → Option (List Char)
  | _, [] => none
  | acc, c :: rest =>
    if startsWithL rest [q, ')'] then some (c :: acc).reverse
    else scanLogBody q (c :: acc) rest

/-- Try `console\.log\((['"`])(.+?)\1\)` anchored at the list head. -/
def matchLogAt (s : List Char) : Option (List Char) :=
  if startsWithL s logHead then
    match s.drop logHead.length with
    | q :: rest => if quoteChars.contains q then scanLogBody q [] rest else none
    | [] => none
  else none

/-- `rawLine.match(/console\.log\((['"`])(.+?)\1\)/)` — leftmost match,
returning the captured message. -/
def matchLog : List Char → Option (List Char)
  | [] => none
  | c :: rest =>
    match matchLogAt (c :: rest) with
    | some m => some m
    | none => matchLog rest

/-- Try `HEAD\s*\(\)\s*=>\s*\{` anchored at the list head, where `HEAD`
is one of the literal call heads ending in `(`. -/
def matchCbAt (head : List Char) (s : List Char) : Bool :=
  if startsWithL s head then
    let r1 := skipWSL (s.drop head.length)
    if startsWithL r1 ['(', ')'] then
      let r2 := skipWSL (r1.drop 2)
      if startsWithL r2 ['=', '>'] then
        startsWithL (skipWSL (r2.drop 2)) [openBraceC]
      else false
    else false
  else false

/-- Leftmost `test` of a callback-opening regex. -/
def matchCbAnywhere (head : List Char) : List Char → Bool
  | [] => false
  | c :: rest => matchCbAt head (c :: rest) || matchCbAnywhere head rest

def timeoutHead : List Char := ("setTimeout(").toList

def immediateHead : List Char := ("setImmediate(").toList

def promiseHead : List Char := ("Promise.resolve().then(").toList

def qmHead : List Char := ("queueMicrotask(").toList

def ntHead : List Char := ("process.nextTick(").toList

/-- `/setTimeout\(\s*\(\)\s*=>\s*\{/.test(rawLine)`. -/
def matchTimeout (s : List Char) : Bool := matchCbAnywhere timeoutHead s

/-- `/setImmediate\(\s*\(\)\s*=>\s*\{/.test(rawLine)`. -/
def matchImmediate (s : List Char) : Bool := matchCbAnywhere immediateHead s

/-- `/(Promise\.resolve\(\)\.then|queueMicrotask|process\.nextTick)\(\s*\(\)\s*=>\s*\{/.test(rawLine)`. -/
def matchMicro (s : List Char) : Bool :=
  matchCbAnywhere promiseHead s || matchCbAnywhere qmHead s || matchCbAnywhere ntHead s

def isDigitC (c : Char) : Bool := 48 ≤ c.toNat && c.toNat ≤ 57

/-- `parseInt(ds, 10)` on a nonempty digit run. -/
def digitsToNat (l : List Char) : Nat :=
  l.foldl (fun n c => 10 * n + (c.toNat - 48)) 0

/-- Try `\},\s*(\d+)\);?` anchored at the list head (`\d+` greedy, then
a literal `)`; the optional `;` does not affect the capture). -/
def matchDelayAt (s : List Char) : Option Nat :=
  if startsWithL s [closeBraceC, ','] then
    let r := skipWSL (s.drop 2)
    let ds := r.takeWhile isDigitC
    if ds.isEmpty then none
    else if startsWithL (r.drop ds.length) [')'] then some (digitsToNat ds) else none
  else none

/-- `closingLine.match(/\},\s*(\d+)\);?/)` — leftmost match, returning
the parsed delay. -/
def matchDelay : List Char → Option Nat
  | [] => none
  | c :: rest =>
    match matchDelayAt (c :: rest) with
    | some d => some d
    | none => matchDelay rest

/-! ## Body extraction (the brace-balance scan) and the parser -/

/-- One line of the source scan:
`if (lines[j].includes('{')) balance++; if (lines[j].includes('}')) balance--;`
(per-line containment, not per-occurrence counting). -/
def balLineContain (b : Int) (l : List Char) : Int :=
  let b1 := if containsChar l openBraceC then b + 1 else b
  if containsChar l closeBraceC then b1 - 1 else b1

/-- The closing-brace search loop `for (; j < endLine; j++) { ... if
(balance === 0) break; }`; when the loop runs off the range it leaves
`j = endLine`.  `fuel ≥ endL - j` suffices for the escape clause never
to fire; all call sites pass `fuel = endL`. -/
def findClose (lines : List (List Char)) (endL : Nat) : Nat → Nat → Int → Nat
  | 0, j, _ => j
  | fuel + 1, j, balance =>
    if j < endL then
      let b2 := balLineContain balance (lines.getD j [])
      if b2 = 0 then j else findClose lines endL fuel (j + 1) b2
    else j

/-- `!rawLine || rawLine.startsWith('//')`. -/
def isSkippedLine (raw : List Char) : Bool :=
  raw.isEmpty || startsWithL raw [slashC, slashC]

/-- `` `task-${idCounter++}` ``. -/
def taskIdStr (n : Nat) : String := ("task-") ++ Nat.repr n

/-- `parseBlock(lines, i, endLine)` with the id counter threaded
explicitly (returns the produced tasks and the counter after the call).
The outer `for` loop and the jump `i = j` are modelled by recursion on a
fuel bounding `endL - i`; `fuel ≥ endL - i` suffices for the escape
clause never to fire (each recursive range is strictly shorter), and
`parseCode` passes `lines.length + 1`. -/
def parseBlockF (lines : List (List Char)) : Nat → Nat → Nat → Nat → List Task × Nat
  | 0, _, _, ctr => ([], ctr)
  | fuel + 1, i, endL, ctr =>
    if i < endL then
      let raw := trimJS (lines.getD i [])
      if isSkippedLine raw then parseBlockF lines fuel (i + 1) endL ctr
      else
        match matchLog raw with
        | some msg =>
          let pr := parseBlockF lines fuel (i + 1) endL (ctr + 1)
          (Task.mk (taskIdStr ctr) TaskType.LOG (String.mk msg) none none (some (i + 1)) :: pr.1,
           pr.2)
        | none =>
          if matchTimeout raw then
            let j := findClose lines endL endL (i + 1) 1
            let ch := parseBlockF lines fuel (i + 1) j ctr
            let d := (matchDelay (lines.getD j [])).getD 0
            let rest := parseBlockF lines fuel (j + 1) endL (ch.2 + 1)
            (Task.mk (taskIdStr ch.2) TaskType.TIMEOUT ("setTimeout") (some d)
               (some ch.1) (some (i + 1)) :: rest.1,
             rest.2)
          else if matchImmediate raw then
            let j := findClose lines endL endL (i + 1) 1
            let ch := parseBlockF lines fuel (i + 1) j ctr
            let rest := parseBlockF lines fuel (j + 1) endL (ch.2 + 1)
            (Task.mk (taskIdStr ch.2) TaskType.TIMEOUT ("setImmediate") (some 0)
               (some ch.1) (some (i + 1)) :: rest.1,
             rest.2)
          else if matchMicro raw then
            let j := findClose lines endL endL (i + 1) 1
            let ch := parseBlockF lines fuel (i + 1) j ctr
            let label :=
              if containsSub raw ntHead.dropLast then ("process.nextTick")
              else if containsSub raw qmHead.dropLast then ("queueMicrotask")
              else ("Promise.then")
            let rest := parseBlockF lines fuel (j + 1) endL (ch.2 + 1)
            (Task.mk (taskIdStr ch.2) TaskType.PROMISE label none
               (some ch.1) (some (i + 1)) :: rest.1,
             rest.2)
          else parseBlockF lines fuel (i + 1) endL ctr
    else ([], ctr)

/-- `parseCode` — resets the id counter to `0` and parses the whole
line range. -/
def parseCode (code : String) : List Task :=
  let lines := splitLines code.toList
  (parseBlockF lines (lines.length + 1) 0 lines.length 0).1

/-- `parseCode` seen with the ambient module-level counter made explicit:
whatever value `idCounter` holds when the call begins, the first line of
the source (`idCounter = 0`) discards it.  Returns the tree and the
counter value left behind for a subsequent invocation. -/
def parseCodeFrom (idCounter : Nat) (code : String) : List Task × Nat :=
  let lines := splitLines code.toList
  parseBlockF lines (lines.length + 1) 0 lines.length 0

/-! ## The execution engine -/

/-- Placeholder for `frame.linesOfCode[frame.currentLineIndex!]` — the
guard `currentLineIndex >= linesOfCode.length` makes the out-of-range
default unreachable. -/
def defaultTask : Task := Task.mk ("") TaskType.MAIN ("") none none none

/-- `x || null` on an optional line number (`0` is falsy in JS). -/
def lineOrNull : Option Nat → Option Nat
  | some l => if l = 0 then none else some l
  | none => none

/-- `if (task.line) activeLine = task.line` (again `0` is falsy). -/
def updActiveLine (prevLine : Option Nat) : Option Nat → Option Nat
  | some l => if l = 0 then prevLine else some l
  | none => prevLine

/-- Branch A of `step` once an in-range instruction has been read: the
top frame's cursor is advanced in place and the instruction dispatched by
kind.  `freshId` stands for `` `micro-${Date.now()}-${Math.random()}` ``
and `now` for `Date.now()`; neither influences control flow. -/
def execInstr (freshId : String) (now : Nat) (prev : EngineState)
    (frame : CallStackFrame) (task : Task) : EngineState :=
  let stack' := prev.callStack.dropLast ++
    [{ frame with currentLineIndex := frame.currentLineIndex + 1 }]
  let activeLine' := updActiveLine prev.activeLine task.line
  match task.type with
  | TaskType.LOG =>
      { prev with
        callStack := stack',
        consoleOutput := prev.consoleOutput ++ [task.content],
        activeLine := activeLine' }
  | TaskType.TIMEOUT =>
      { prev with
        callStack := stack',
        webApis := prev.webApis ++ [⟨task, now, Int.ofNat (task.delay.getD 0)⟩],
        activeLine := activeLine' }
  | TaskType.PROMISE =>
      match task.children with
      | some cs =>
          { prev with
            callStack := stack',
            microtaskQueue := prev.microtaskQueue ++
              [Task.mk freshId TaskType.PROMISE
                 (if task.content = ("process.nextTick") then ("process.nextTick")
                  else ("Promise Callback"))
                 none (some cs) task.line],
            activeLine := activeLine' }
      | none =>
          { prev with callStack := stack', activeLine := activeLine' }
  | TaskType.MAIN =>
      { prev with callStack := stack', activeLine := activeLine' }

/-- Branch B of `step` (stack empty): microtasks first, then macrotasks,
then the finished / idle check. -/
def dequeueStep (prev : EngineState) : EngineState :=
  match prev.microtaskQueue with
  | m :: rest =>
      { prev with
        callStack := prev.callStack ++
          [⟨m.id, m.content, TaskType.PROMISE, m.children.getD [], 0, m.line⟩],
        microtaskQueue := rest,
        activeLine := lineOrNull m.line }
  | [] =>
    match prev.macrotaskQueue with
    | m :: rest =>
        { prev with
          callStack := prev.callStack ++
            [⟨m.id,
              (if m.content = ("setImmediate") then ("setImmediate") else ("setTimeout")),
              TaskType.TIMEOUT, m.children.getD [], 0, m.line⟩],
          macrotaskQueue := rest,
          activeLine := lineOrNull m.line }
    | [] =>
      match prev.webApis with
      | [] => { prev with isFinished := true, activeLine := none, isRunning := false }
      | _ :: _ => { prev with isFinished := false }

/-- The `step` transition.  The JS stack top is the last array element;
popping is `dropLast`, pushing appends.  A frame whose cursor has run off
its instruction list is popped (clearing the highlight) and nothing else
happens in that step. -/
def stepE (freshId : String) (now : Nat) (prev : EngineState) : EngineState :=
  match prev.callStack.getLast? with
  | some frame =>
      if frame.currentLineIndex ≥ frame.linesOfCode.length then
        { prev with callStack := prev.callStack.dropLast, activeLine := none }
      else
        execInstr freshId now prev frame
          (frame.linesOfCode.getD frame.currentLineIndex defaultTask)
  | none => dequeueStep prev

/-- `resetEngine` — parse the text and start with `main()` on the stack.
`speed` is persisted from the previous state in the source; it is fixed
to the initial `1000` here since nothing downstream reads it. -/
def resetEngine (newCode : String) (autoPlay : Bool) : EngineState :=
  let tasks := parseCode newCode
  { code := newCode, parsedTasks := tasks,
    callStack := [⟨("main"), ("main()"), TaskType.MAIN, tasks, 0, some 0⟩],
    webApis := [], microtaskQueue := [], macrotaskQueue := [],
    consoleOutput := [], isRunning := autoPlay, speed := 1000,
    isFinished := false, activeLine := none }

/-! ## The Web API timer effect -/

/-- Both the `setInterval` cadence and the per-tick decrement of the
timer effect are 100 ms. -/
def TICK_MS : Int := 100

/-- `{...api, content: api.content === 'setImmediate' ? 'setImmediate' :
'Timeout Callback'}` — the promoted macrotask keeps every field of the
registration (in particular its id) except the display content. -/
def promoteTask (a : WebApiTask) : Task :=
  a.task.withContent
    (if a.task.content = ("setImmediate") then ("setImmediate") else ("Timeout Callback"))

/-- The `forEach` body of the timer effect: split the pending set into
entries kept (decremented) and entries promoted, preserving order within
each group. -/
def tickApis : List WebApiTask → List WebApiTask × List Task
  | [] => ([], [])
  | a :: rest =>
    let pr := tickApis rest
    if a.remainingTime ≤ 0 then (pr.1, promoteTask a :: pr.2)
    else ({ a with remainingTime := a.remainingTime - TICK_MS } :: pr.1, pr.2)

/-- One tick of the timer effect.  (The source tracks a `hasChanges`
flag, but it is set on every `forEach` iteration, so with a non-empty
pending set the update is unconditional.) -/
def tick (prev : EngineState) : EngineState :=
  match prev.webApis with
  | [] => prev
  | _ :: _ =>
    let pr := tickApis prev.webApis
    { prev with webApis := pr.1, macrotaskQueue := prev.macrotaskQueue ++ pr.2 }

/-! ## Interleavings of steps and ticks -/

/-- An event of the combined system: a `step()` call (with its oracle
values for `Date.now()` and the random microtask id) or a timer tick. -/
inductive Ev where
  | estep (freshId : String) (now : Nat)
  | etick

def applyEv : Ev → EngineState → EngineState
  | .estep fid now, s => stepE fid now s
  | .etick, s => tick s

def runEvents (s : EngineState) (evs : List Ev) : EngineState :=
  evs.foldl (fun t e => applyEv e t) s

/-! ## Generic facts about the step transition -/

theorem getLast?_none_iff {α : Type} {l : List α} : l.getLast? = none ↔ l = [] :=
  List.getLast?_eq_none_iff

/-- `stepE` unfolded when the stack has a top frame. -/
theorem stepE_stack_some (fid : String) (now : Nat) (s : EngineState)
    (frame : CallStackFrame) (h : s.callStack.getLast? = some frame) :
    stepE fid now s =
      if frame.currentLineIndex ≥ frame.linesOfCode.length then
        { s with callStack := s.callStack.dropLast, activeLine := none }
      else
        execInstr fid now s frame
          (frame.linesOfCode.getD frame.currentLineIndex defaultTask) := by
  unfold stepE
  rw [h]

/-- `stepE` unfolded when the stack is empty. -/
theorem stepE_stack_none (fid : String) (now : Nat) (s : EngineState)
    (h : s.callStack.getLast? = none) : stepE fid now s = dequeueStep s := by
  unfold stepE
  rw [h]

/-- Claim C10: `step` never changes the code text, the parsed task tree,
or the speed setting; only the stack, pending set, queues, output log,
flags, and highlighted line are touched. -/
theorem step_frame_condition (fid : String) (now : Nat) (s : EngineState) :
    (stepE fid now s).code = s.code ∧ (stepE fid now s).parsedTasks = s.parsedTasks ∧
      (stepE fid now s).speed = s.speed := by
  refine ⟨?_, ?_, ?_⟩ <;>
    (unfold stepE execInstr dequeueStep; repeat' split) <;> rfl

/-- The `forEach` of the timer effect splits the pending set into the
promoted entries (remaining time at or below zero, in order) and the
kept entries (decremented by the tick interval, in order). -/
theorem tickApis_eq (l : List WebApiTask) :
    tickApis l =
      ((l.filter fun a => decide (0 < a.remainingTime)).map
         (fun a => { a with remainingTime := a.remainingTime - TICK_MS }),
       (l.filter fun a => decide (a.remainingTime ≤ 0)).map promoteTask) := by
  induction l with
  | nil => rfl
  | cons a rest ih =>
    by_cases h : a.remainingTime ≤ 0
    · simp [tickApis, ih, h, List.filter_cons, not_lt.mpr h]
    · simp [tickApis, ih, h, List.filter_cons, not_le.mp h]

theorem tick_eq (s : EngineState) :
    tick s = { s with
      webApis := (s.webApis.filter fun a => decide (0 < a.remainingTime)).map
        (fun a => { a with remainingTime := a.remainingTime - TICK_MS }),
      macrotaskQueue := s.macrotaskQueue ++
        (s.webApis.filter fun a => decide (a.remainingTime ≤ 0)).map promoteTask } := by
  obtain ⟨c, p, cs, wa, mi, ma, o, r, sp, f, al⟩ := s
  cases wa with
  | nil => simp [tick]
  | cons a rest => simp [tick, tickApis_eq]

/-- Claim C9: each tick removes every pending entry whose remaining time
is at or below zero and appends it (identifier, kind, delay, children and
line preserved; only the content relabelled) to the macrotask queue in
order, decrements every other pending entry by exactly the tick
interval, and touches no other engine state. -/
theorem tick_spec (s : EngineState) :
    (tick s).webApis =
      (s.webApis.filter fun a => decide (0 < a.remainingTime)).map
        (fun a => { a with remainingTime := a.remainingTime - TICK_MS }) ∧
    (tick s).macrotaskQueue =
      s.macrotaskQueue ++
        (s.webApis.filter fun a => decide (a.remainingTime ≤ 0)).map promoteTask ∧
    (∀ a, (promoteTask a).id = a.task.id ∧ (promoteTask a).type = a.task.type ∧
      (promoteTask a).delay = a.task.delay ∧ (promoteTask a).children = a.task.children ∧
      (promoteTask a).line = a.task.line) ∧
    (tick s).callStack = s.callStack ∧ (tick s).microtaskQueue = s.microtaskQueue ∧
    (tick s).consoleOutput = s.consoleOutput ∧ (tick s).isFinished = s.isFinished ∧
    (tick s).isRunning = s.isRunning ∧ (tick s).activeLine = s.activeLine ∧
    (tick s).code = s.code ∧ (tick s).parsedTasks = s.parsedTasks ∧
    (tick s).speed = s.speed := by
  have hpromote : ∀ a : WebApiTask,
      (promoteTask a).id = a.task.id ∧ (promoteTask a).type = a.task.type ∧
      (promoteTask a).delay = a.task.delay ∧ (promoteTask a).children = a.task.children ∧
      (promoteTask a).line = a.task.line := by
    intro a
    obtain ⟨⟨i, t, c, d, ch, l⟩, st, rt⟩ := a
    exact ⟨rfl, rfl, rfl, rfl, rfl⟩
  refine ⟨?_, ?_, hpromote, ?_, ?_, ?_, ?_, ?_, ?_, ?_, ?_, ?_⟩ <;> rw [tick_eq]

/-- Claim C4: the parse is a deterministic function of the text alone —
whatever value the module-level id counter holds when `parseCode` is
invoked, the reset at the top of the function discards it, so two
invocations on identical text yield identical trees (hence in particular
trees equal up to identifier relabelling). -/
theorem parse_deterministic (ctr1 ctr2 : Nat) (code : String) :
    parseCodeFrom ctr1 code = parseCodeFrom ctr2 code ∧
      (parseCodeFrom ctr1 code).1 = parseCode code :=
  ⟨rfl, rfl⟩

/-- Claim C2: with an empty stack and a non-empty microtask queue,
`step` dequeues exactly the microtask head, pushes a frame for it, and
leaves the macrotask queue unchanged; moreover the macrotask queue is
never dequeued (or otherwise changed by `step`) while the microtask
queue is non-empty. -/
theorem micro_priority_dequeue (fid : String) (now : Nat) (s : EngineState) :
    (∀ m rest, s.callStack = [] → s.microtaskQueue = m :: rest →
      (stepE fid now s).microtaskQueue = rest ∧
      (stepE fid now s).callStack =
        [⟨m.id, m.content, TaskType.PROMISE, m.children.getD [], 0, m.line⟩] ∧
      (stepE fid now s).macrotaskQueue = s.macrotaskQueue) ∧
    (s.microtaskQueue ≠ [] → (stepE fid now s).macrotaskQueue = s.macrotaskQueue) := by
  constructor
  · intro m rest hcs hmi
    unfold stepE
    rw [hcs]
    unfold dequeueStep
    rw [hmi]
    simp [hcs]
  · intro hne
    cases hl : s.callStack.getLast? with
    | none =>
      rw [stepE_stack_none fid now s hl]
      unfold dequeueStep
      cases hmi : s.microtaskQueue with
      | nil => exact absurd hmi hne
      | cons m rest => rfl
    | some frame =>
      rw [stepE_stack_some fid now s frame hl]
      split
      · rfl
      · unfold execInstr
        (repeat' split) <;> rfl

/-- Claim C7: each queue is strict FIFO — a `step` either leaves the
microtask queue alone, removes exactly its head, or appends exactly one
entry at its tail, and either leaves the macrotask queue alone or
removes exactly its head; a tick never touches the microtask queue and
only appends at the macrotask tail.  No operation reorders a queue. -/
theorem queue_fifo_discipline (fid : String) (now : Nat) (s : EngineState) :
    ((stepE fid now s).microtaskQueue = s.microtaskQueue ∨
      (stepE fid now s).microtaskQueue = s.microtaskQueue.tail ∨
      ∃ t, (stepE fid now s).microtaskQueue = s.microtaskQueue ++ [t]) ∧
    ((stepE fid now s).macrotaskQueue = s.macrotaskQueue ∨
      (stepE fid now s).macrotaskQueue = s.macrotaskQueue.tail) ∧
    (tick s).microtaskQueue = s.microtaskQueue ∧
    (∃ ts, (tick s).macrotaskQueue = s.macrotaskQueue ++ ts) := by
  refine ⟨?_, ?_, ?_, ?_⟩
  · unfold stepE execInstr dequeueStep
    repeat' split
    all_goals first
      | exact Or.inl rfl
      | exact Or.inr (Or.inr ⟨_, rfl⟩)
      | exact Or.inr (Or.inl (by simp_all))
  · unfold stepE execInstr dequeueStep
    repeat' split
    all_goals first
      | exact Or.inl rfl
      | exact Or.inr (by simp_all)
  · unfold tick
    (repeat' split) <;> rfl
  · unfold tick
    split
    · exact ⟨[], by simp⟩
    · exact ⟨_, rfl⟩

/-! ## Unfolding lemmas for the empty-stack branch -/

theorem dequeueStep_micro_cons (s : EngineState) (m : Task) (rest : List Task)
    (hmi : s.microtaskQueue = m :: rest) :
    dequeueStep s =
      { s with
        callStack := s.callStack ++
          [⟨m.id, m.content, TaskType.PROMISE, m.children.getD [], 0, m.line⟩],
        microtaskQueue := rest,
        activeLine := lineOrNull m.line } := by
  unfold dequeueStep
  rw [hmi]

theorem dequeueStep_macro_cons (s : EngineState) (m : Task) (rest : List Task)
    (hmi : s.microtaskQueue = []) (hma : s.macrotaskQueue = m :: rest) :
    dequeueStep s =
      { s with
        callStack := s.callStack ++
          [⟨m.id,
            (if m.content = ("setImmediate") then ("setImmediate") else ("setTimeout")),
            TaskType.TIMEOUT, m.children.getD [], 0, m.line⟩],
        macrotaskQueue := rest,
        activeLine := lineOrNull m.line } := by
  unfold dequeueStep
  rw [hmi, hma]

theorem dequeueStep_all_empty (s : EngineState) (hmi : s.microtaskQueue = [])
    (hma : s.macrotaskQueue = []) (hwa : s.webApis = []) :
    dequeueStep s = { s with isFinished := true, activeLine := none, isRunning := false } := by
  unfold dequeueStep
  rw [hmi, hma, hwa]

theorem dequeueStep_idle (s : EngineState) (a : WebApiTask) (l : List WebApiTask)
    (hmi : s.microtaskQueue = []) (hma : s.macrotaskQueue = [])
    (hwa : s.webApis = a :: l) :
    dequeueStep s = { s with isFinished := false } := by
  unfold dequeueStep
  rw [hmi, hma, hwa]

/-! ## Scenario A state and the finished flag (claim C3) -/

/-- `console.log('A')` — a single log. -/
def codeA : String := "console.log(\x27A\x27)"

/-- The Scenario A engine after two steps: the log has executed and the
`main()` frame has been popped. -/
def sA2 : EngineState := stepE ("x") 0 (stepE ("x") 0 (resetEngine codeA false))

/-- One more step on `sA2` — only now is the finished flag set. -/
def sA3 : EngineState := stepE ("x") 0 sA2

/-- Claim C3 counterexample: after the step of `stepE` that pops the
last frame of the single-log program, the call stack, pending set and
both queues are all simultaneously empty, yet the finished flag is still
`false` — refuting the claimed "if and only if".  The flag is only set
by the *next* step. -/
theorem finished_flag_cex :
    sA2.callStack = [] ∧ sA2.webApis = [] ∧ sA2.microtaskQueue = [] ∧
      sA2.macrotaskQueue = [] ∧ sA2.isFinished = false ∧ sA3.isFinished = true :=
  ⟨rfl, rfl, rfl, rfl, rfl, rfl⟩

/-- Claim C3 (amended): starting from a not-yet-finished state, a step
sets the finished flag iff the stack, both queues, and the pending set
were all already empty *when the step began* (so the flag lags the
emptiness of the state by exactly one step); and a finished state — all
components empty, highlight cleared, not running — is left completely
unchanged by a further step. -/
theorem finished_flag_step (fid : String) (now : Nat) (s : EngineState) :
    (s.isFinished = false →
      ((stepE fid now s).isFinished = true ↔
        s.callStack = [] ∧ s.microtaskQueue = [] ∧ s.macrotaskQueue = [] ∧
          s.webApis = [])) ∧
    (s.isFinished = true → s.callStack = [] → s.webApis = [] → s.microtaskQueue = [] →
      s.macrotaskQueue = [] → s.activeLine = none → s.isRunning = false →
      stepE fid now s = s) := by
  constructor
  · intro hfin
    cases hl : s.callStack.getLast? with
    | some frame =>
      have hcs : s.callStack ≠ [] := by
        intro h
        rw [h] at hl
        simp at hl
      rw [stepE_stack_some fid now s frame hl]
      constructor
      · intro h
        exfalso
        revert h
        split
        · simp [hfin]
        · unfold execInstr
          (repeat' split) <;> simp [hfin]
      · rintro ⟨h1, -, -, -⟩
        exact absurd h1 hcs
    | none =>
      have hcs : s.callStack = [] := getLast?_none_iff.mp hl
      rw [stepE_stack_none fid now s hl]
      cases hmi : s.microtaskQueue with
      | cons m rest =>
        rw [dequeueStep_micro_cons s m rest hmi]
        simp [hfin, hmi]
      | nil =>
        cases hma : s.macrotaskQueue with
        | cons m rest =>
          rw [dequeueStep_macro_cons s m rest hmi hma]
          simp [hfin, hma]
        | nil =>
          cases hwa : s.webApis with
          | nil =>
            rw [dequeueStep_all_empty s hmi hma hwa]
            simp [hcs, hmi, hma, hwa]
          | cons a l =>
            rw [dequeueStep_idle s a l hmi hma hwa]
            simp [hfin, hwa]
  · intro hfin hcs hwa hmi hma hal hrun
    rw [stepE_stack_none fid now s (getLast?_none_iff.mpr hcs),
      dequeueStep_all_empty s hmi hma hwa, ← hfin, ← hal, ← hrun]

/-- Claim C3 witness: the amended theorem applied at the two-step and
three-step Scenario A states. -/
theorem finished_flag_step_witness :
    (stepE ("x") 0 sA2).isFinished = true ∧ stepE ("x") 0 sA3 = sA3 :=
  ⟨((finished_flag_step ("x") 0 sA2).1 rfl).mpr ⟨rfl, rfl, rfl, rfl⟩,
   (finished_flag_step ("x") 0 sA3).2 rfl rfl rfl rfl rfl rfl rfl⟩

/-! ## Microtask registration labels (claim C5) -/

/-- A microtask registration via `queueMicrotask` with an empty body. -/
def qmProg : String := "queueMicrotask(() => \x7b\n\x7d);"

/-- A microtask registration via `Promise.resolve().then` with an empty
body. -/
def prProg : String := "Promise.resolve().then(() => \x7b\n\x7d);"

/-- Claim C5 counterexample: executing the registration parsed from the
explicit-microtask-enqueue spelling (`queueMicrotask`) and from the
promise-resolution spelling enqueues entries with the *same* display
label `Promise Callback` — the three spellings do not each get their own
distinct label on the enqueued entry (only `process.nextTick` is kept
distinct). -/
theorem micro_label_collapse_cex :
    (stepE ("f1") 0 (resetEngine qmProg false)).microtaskQueue.map Task.content
        = [("Promise Callback")] ∧
      (stepE ("f2") 0 (resetEngine prProg false)).microtaskQueue.map Task.content
        = [("Promise Callback")] :=
  ⟨rfl, rfl⟩

/-- Claim C5 (amended): executing a microtask-registration instruction
appends a freshly built task — new identifier, wrapping the
registration's child body, line preserved — to the microtask queue, and
its display label is `process.nextTick` for the process-level-next-tick
spelling but `Promise Callback` for *both* other spellings. -/
theorem micro_enqueue_spec (fid : String) (now : Nat) (s : EngineState)
    (frame : CallStackFrame) (cs : List Task)
    (hlast : s.callStack.getLast? = some frame)
    (hidx : ¬ frame.currentLineIndex ≥ frame.linesOfCode.length)
    (htype : (frame.linesOfCode.getD frame.currentLineIndex defaultTask).type
        = TaskType.PROMISE)
    (hch : (frame.linesOfCode.getD frame.currentLineIndex defaultTask).children
        = some cs) :
    (stepE fid now s).microtaskQueue =
      s.microtaskQueue ++
        [Task.mk fid TaskType.PROMISE
          (if (frame.linesOfCode.getD frame.currentLineIndex defaultTask).content
              = ("process.nextTick")
           then ("process.nextTick") else ("Promise Callback"))
          none (some cs)
          (frame.linesOfCode.getD frame.currentLineIndex defaultTask).line] := by
  rw [stepE_stack_some fid now s frame hlast, if_neg hidx]
  rcases hT : frame.linesOfCode.getD frame.currentLineIndex defaultTask
    with ⟨tid, ty, cont, del, ch, ln⟩
  rw [hT] at htype hch
  simp only [Task.type] at htype
  simp only [Task.children] at hch
  subst htype
  subst hch
  rfl

/-- Claim C5 witness: the amended theorem applied to the engine state
freshly reset on the `queueMicrotask` program. -/
theorem micro_enqueue_spec_witness :
    (stepE ("w5") 0 (resetEngine qmProg false)).microtaskQueue =
      [Task.mk ("w5") TaskType.PROMISE ("Promise Callback") none (some []) (some 1)] := by
  have h := micro_enqueue_spec ("w5") 0 (resetEngine qmProg false)
    ⟨("main"), ("main()"), TaskType.MAIN, parseCode qmProg, 0, some 0⟩ []
    rfl (by decide) rfl rfl
  exact h

/-- Claim C2 witness: a concrete state with an empty stack, one queued
microtask and one queued macrotask. -/
def wMicroTask : Task :=
  Task.mk ("m-0") TaskType.PROMISE ("Promise Callback") none (some []) none

def wMacroTask : Task :=
  Task.mk ("t-0") TaskType.TIMEOUT ("Timeout Callback") (some 0) (some []) none

def wState : EngineState :=
  ⟨(""), [], [], [], [wMicroTask], [wMacroTask], [], false, 1000, false, none⟩

theorem micro_priority_dequeue_witness :
    ((stepE ("w2") 0 wState).microtaskQueue = [] ∧
      (stepE ("w2") 0 wState).callStack =
        [⟨wMicroTask.id, wMicroTask.content, TaskType.PROMISE,
          wMicroTask.children.getD [], 0, wMicroTask.line⟩] ∧
      (stepE ("w2") 0 wState).macrotaskQueue = wState.macrotaskQueue) ∧
    (stepE ("w2") 0 wState).macrotaskQueue = wState.macrotaskQueue :=
  ⟨(micro_priority_dequeue ("w2") 0 wState).1 wMicroTask [] rfl rfl,
   (micro_priority_dequeue ("w2") 0 wState).2 (List.cons_ne_nil _ _)⟩

/-! ## Totality of the parser (claim C8) -/

/-- Outside the line range the block parser produces nothing. -/
theorem parseBlockF_out (lines : List (List Char)) (fuel i endL ctr : Nat)
    (h : endL ≤ i) : parseBlockF lines fuel i endL ctr = ([], ctr) := by
  cases fuel with
  | zero => rfl
  | succ fuel => simp [parseBlockF, Nat.not_lt.mpr h]

/-- One-step unfolding of the block parser at a skipped (blank or
comment) line. -/
theorem parseBlockF_succ_skipped (lines : List (List Char)) (fuel i endL ctr : Nat)
    (hi : i < endL) (hs : isSkippedLine (trimJS (lines.getD i [])) = true) :
    parseBlockF lines (fuel + 1) i endL ctr = parseBlockF lines fuel (i + 1) endL ctr := by
  simp only [parseBlockF]
  rw [if_pos hi, if_pos hs]

/-- One-step unfolding of the block parser at a line matched by none of
the recognizers. -/
theorem parseBlockF_succ_nomatch (lines : List (List Char)) (fuel i endL ctr : Nat)
    (hi : i < endL)
    (hs : isSkippedLine (trimJS (lines.getD i [])) = false)
    (hlog : matchLog (trimJS (lines.getD i [])) = none)
    (ht : matchTimeout (trimJS (lines.getD i [])) = false)
    (him : matchImmediate (trimJS (lines.getD i [])) = false)
    (hmic : matchMicro (trimJS (lines.getD i [])) = false) :
    parseBlockF lines (fuel + 1) i endL ctr = parseBlockF lines fuel (i + 1) endL ctr := by
  simp only [parseBlockF]
  rw [if_pos hi, if_neg (by rw [hs]; exact Bool.false_ne_true), hlog]
  dsimp only
  rw [if_neg (by rw [ht]; exact Bool.false_ne_true), if_neg (by rw [him]; exact Bool.false_ne_true), if_neg (by rw [hmic]; exact Bool.false_ne_true)]

/-- One-step unfolding of the block parser at a log line. -/
theorem parseBlockF_succ_log (lines : List (List Char)) (fuel i endL ctr : Nat)
    (msg : List Char) (hi : i < endL)
    (hs : isSkippedLine (trimJS (lines.getD i [])) = false)
    (hlog : matchLog (trimJS (lines.getD i [])) = some msg) :
    parseBlockF lines (fuel + 1) i endL ctr =
      (Task.mk (taskIdStr ctr) TaskType.LOG (String.mk msg) none none (some (i + 1)) ::
          (parseBlockF lines fuel (i + 1) endL (ctr + 1)).1,
        (parseBlockF lines fuel (i + 1) endL (ctr + 1)).2) := by
  simp only [parseBlockF]
  rw [if_pos hi, if_neg (by rw [hs]; exact Bool.false_ne_true), hlog]

/-- One-step unfolding of the block parser at a `setTimeout` opener. -/
theorem parseBlockF_succ_timeout (lines : List (List Char)) (fuel i endL ctr : Nat)
    (hi : i < endL)
    (hs : isSkippedLine (trimJS (lines.getD i [])) = false)
    (hlog : matchLog (trimJS (lines.getD i [])) = none)
    (ht : matchTimeout (trimJS (lines.getD i [])) = true) :
    parseBlockF lines (fuel + 1) i endL ctr =
      (Task.mk (taskIdStr (parseBlockF lines fuel (i + 1)
            (findClose lines endL endL (i + 1) 1) ctr).2)
          TaskType.TIMEOUT ("setTimeout")
          (some ((matchDelay (lines.getD (findClose lines endL endL (i + 1) 1) [])).getD 0))
          (some (parseBlockF lines fuel (i + 1)
            (findClose lines endL endL (i + 1) 1) ctr).1) (some (i + 1)) ::
          (parseBlockF lines fuel (findClose lines endL endL (i + 1) 1 + 1) endL
            ((parseBlockF lines fuel (i + 1)
              (findClose lines endL endL (i + 1) 1) ctr).2 + 1)).1,
        (parseBlockF lines fuel (findClose lines endL endL (i + 1) 1 + 1) endL
          ((parseBlockF lines fuel (i + 1)
            (findClose lines endL endL (i + 1) 1) ctr).2 + 1)).2) := by
  simp only [parseBlockF]
  rw [if_pos hi, if_neg (by rw [hs]; exact Bool.false_ne_true), hlog]
  dsimp only
  rw [if_pos ht]

/-- One-step unfolding of the block parser at a `setImmediate` opener. -/
theorem parseBlockF_succ_immediate (lines : List (List Char)) (fuel i endL ctr : Nat)
    (hi : i < endL)
    (hs : isSkippedLine (trimJS (lines.getD i [])) = false)
    (hlog : matchLog (trimJS (lines.getD i [])) = none)
    (ht : matchTimeout (trimJS (lines.getD i [])) = false)
    (him : matchImmediate (trimJS (lines.getD i [])) = true) :
    parseBlockF lines (fuel + 1) i endL ctr =
      (Task.mk (taskIdStr (parseBlockF lines fuel (i + 1)
            (findClose lines endL endL (i + 1) 1) ctr).2)
          TaskType.TIMEOUT ("setImmediate") (some 0)
          (some (parseBlockF lines fuel (i + 1)
            (findClose lines endL endL (i + 1) 1) ctr).1) (some (i + 1)) ::
          (parseBlockF lines fuel (findClose lines endL endL (i + 1) 1 + 1) endL
            ((parseBlockF lines fuel (i + 1)
              (findClose lines endL endL (i + 1) 1) ctr).2 + 1)).1,
        (parseBlockF lines fuel (findClose lines endL endL (i + 1) 1 + 1) endL
          ((parseBlockF lines fuel (i + 1)
            (findClose lines endL endL (i + 1) 1) ctr).2 + 1)).2) := by
  simp only [parseBlockF]
  rw [if_pos hi, if_neg (by rw [hs]; exact Bool.false_ne_true), hlog]
  dsimp only
  rw [if_neg (by rw [ht]; exact Bool.false_ne_true), if_pos him]

/-- One-step unfolding of the block parser at a microtask opener. -/
theorem parseBlockF_succ_micro (lines : List (List Char)) (fuel i endL ctr : Nat)
    (hi : i < endL)
    (hs : isSkippedLine (trimJS (lines.getD i [])) = false)
    (hlog : matchLog (trimJS (lines.getD i [])) = none)
    (ht : matchTimeout (trimJS (lines.getD i [])) = false)
    (him : matchImmediate (trimJS (lines.getD i [])) = false)
    (hmic : matchMicro (trimJS (lines.getD i [])) = true) :
    parseBlockF lines (fuel + 1) i endL ctr =
      (Task.mk (taskIdStr (parseBlockF lines fuel (i + 1)
            (findClose lines endL endL (i + 1) 1) ctr).2)
          TaskType.PROMISE
          (if containsSub (trimJS (lines.getD i [])) ntHead.dropLast
           then ("process.nextTick")
           else if containsSub (trimJS (lines.getD i [])) qmHead.dropLast
           then ("queueMicrotask") else ("Promise.then"))
          none
          (some (parseBlockF lines fuel (i + 1)
            (findClose lines endL endL (i + 1) 1) ctr).1) (some (i + 1)) ::
          (parseBlockF lines fuel (findClose lines endL endL (i + 1) 1 + 1) endL
            ((parseBlockF lines fuel (i + 1)
              (findClose lines endL endL (i + 1) 1) ctr).2 + 1)).1,
        (parseBlockF lines fuel (findClose lines endL endL (i + 1) 1 + 1) endL
          ((parseBlockF lines fuel (i + 1)
            (findClose lines endL endL (i + 1) 1) ctr).2 + 1)).2) := by
  simp only [parseBlockF]
  rw [if_pos hi, if_neg (by rw [hs]; exact Bool.false_ne_true), hlog]
  dsimp only
  rw [if_neg (by rw [ht]; exact Bool.false_ne_true), if_neg (by rw [him]; exact Bool.false_ne_true), if_pos hmic]

/-- A skipped or unrecognized line produces no task: the scan just moves
to the next line. -/
theorem parseBlockF_skip (lines : List (List Char)) (fuel i endL ctr : Nat)
    (hi : i < endL)
    (h : isSkippedLine (trimJS (lines.getD i [])) = true ∨
      (matchLog (trimJS (lines.getD i [])) = none ∧
        matchTimeout (trimJS (lines.getD i [])) = false ∧
        matchImmediate (trimJS (lines.getD i [])) = false ∧
        matchMicro (trimJS (lines.getD i [])) = false)) :
    parseBlockF lines (fuel + 1) i endL ctr = parseBlockF lines fuel (i + 1) endL ctr := by
  rcases h with hs | ⟨hlog, ht, him, hmic⟩
  · exact parseBlockF_succ_skipped lines fuel i endL ctr hi hs
  · by_cases hs : isSkippedLine (trimJS (lines.getD i [])) = true
    · exact parseBlockF_succ_skipped lines fuel i endL ctr hi hs
    · rw [Bool.not_eq_true] at hs
      exact parseBlockF_succ_nomatch lines fuel i endL ctr hi hs hlog ht him hmic

/-- A callback opener whose brace scan finds no closing line before the
range end truncates the body to the available lines (children are parsed
from the whole remaining range) instead of failing. -/
theorem parseBlockF_truncate (lines : List (List Char)) (fuel i endL ctr : Nat)
    (hi : i < endL)
    (hs : isSkippedLine (trimJS (lines.getD i [])) = false)
    (hlog : matchLog (trimJS (lines.getD i [])) = none)
    (ht : matchTimeout (trimJS (lines.getD i [])) = true)
    (hj : findClose lines endL endL (i + 1) 1 = endL) :
    parseBlockF lines (fuel + 1) i endL ctr =
      ([Task.mk (taskIdStr (parseBlockF lines fuel (i + 1) endL ctr).2)
          TaskType.TIMEOUT ("setTimeout")
          (some ((matchDelay (lines.getD endL [])).getD 0))
          (some (parseBlockF lines fuel (i + 1) endL ctr).1) (some (i + 1))],
        (parseBlockF lines fuel (i + 1) endL ctr).2 + 1) := by
  rw [parseBlockF_succ_timeout lines fuel i endL ctr hi hs hlog ht, hj,
    parseBlockF_out lines fuel (endL + 1) endL _ (Nat.le_succ endL)]

/-- Unterminated-body truncation for a `setImmediate` opener. -/
theorem parseBlockF_truncate_immediate (lines : List (List Char)) (fuel i endL ctr : Nat)
    (hi : i < endL)
    (hs : isSkippedLine (trimJS (lines.getD i [])) = false)
    (hlog : matchLog (trimJS (lines.getD i [])) = none)
    (ht : matchTimeout (trimJS (lines.getD i [])) = false)
    (him : matchImmediate (trimJS (lines.getD i [])) = true)
    (hj : findClose lines endL endL (i + 1) 1 = endL) :
    parseBlockF lines (fuel + 1) i endL ctr =
      ([Task.mk (taskIdStr (parseBlockF lines fuel (i + 1) endL ctr).2)
          TaskType.TIMEOUT ("setImmediate") (some 0)
          (some (parseBlockF lines fuel (i + 1) endL ctr).1) (some (i + 1))],
        (parseBlockF lines fuel (i + 1) endL ctr).2 + 1) := by
  rw [parseBlockF_succ_immediate lines fuel i endL ctr hi hs hlog ht him, hj,
    parseBlockF_out lines fuel (endL + 1) endL _ (Nat.le_succ endL)]

/-- Unterminated-body truncation for a microtask opener (any of the
three spellings). -/
theorem parseBlockF_truncate_micro (lines : List (List Char)) (fuel i endL ctr : Nat)
    (hi : i < endL)
    (hs : isSkippedLine (trimJS (lines.getD i [])) = false)
    (hlog : matchLog (trimJS (lines.getD i [])) = none)
    (ht : matchTimeout (trimJS (lines.getD i [])) = false)
    (him : matchImmediate (trimJS (lines.getD i [])) = false)
    (hmic : matchMicro (trimJS (lines.getD i [])) = true)
    (hj : findClose lines endL endL (i + 1) 1 = endL) :
    parseBlockF lines (fuel + 1) i endL ctr =
      ([Task.mk (taskIdStr (parseBlockF lines fuel (i + 1) endL ctr).2)
          TaskType.PROMISE
          (if containsSub (trimJS (lines.getD i [])) ntHead.dropLast
           then ("process.nextTick")
           else if containsSub (trimJS (lines.getD i [])) qmHead.dropLast
           then ("queueMicrotask") else ("Promise.then"))
          none
          (some (parseBlockF lines fuel (i + 1) endL ctr).1) (some (i + 1))],
        (parseBlockF lines fuel (i + 1) endL ctr).2 + 1) := by
  rw [parseBlockF_succ_micro lines fuel i endL ctr hi hs hlog ht him hmic, hj,
    parseBlockF_out lines fuel (endL + 1) endL _ (Nat.le_succ endL)]

/-- The closing-brace search never runs past the range end. -/
theorem findClose_le (lines : List (List Char)) (endL : Nat) :
    ∀ fuel j (b : Int), j ≤ endL → findClose lines endL fuel j b ≤ endL := by
  intro fuel
  induction fuel with
  | zero => intro j b h; exact h
  | succ fuel ih =>
    intro j b h
    simp only [findClose]
    split
    · split
      · omega
      · exact ih (j + 1) _ (by omega)
    · exact h

/-- The closing-brace search never moves left of its start. -/
theorem findClose_ge (lines : List (List Char)) (endL : Nat) :
    ∀ fuel j (b : Int), j ≤ findClose lines endL fuel j b := by
  intro fuel
  induction fuel with
  | zero => intro j b; exact Nat.le_refl j
  | succ fuel ih =>
    intro j b
    simp only [findClose]
    split
    · split
      · exact Nat.le_refl j
      · exact Nat.le_trans (Nat.le_succ j) (ih (j + 1) _)
    · exact Nat.le_refl j

/-- Fuel-irrelevance of the block parser: any fuel of at least the range
length computes the same result, so `parseCode`'s choice of
`lines.length + 1` is just "enough" — the escape clause of the recursion
never fires and the parse is well-defined and total on every input. -/
theorem parseBlockF_fuel (lines : List (List Char)) :
    ∀ fuel i endL ctr, endL ≤ i + fuel →
      parseBlockF lines (fuel + 1) i endL ctr = parseBlockF lines fuel i endL ctr := by
  intro fuel
  induction fuel with
  | zero =>
    intro i endL ctr h
    rw [parseBlockF_out lines 1 i endL ctr (by omega),
      parseBlockF_out lines 0 i endL ctr (by omega)]
  | succ fuel ih =>
    intro i endL ctr h
    by_cases hi : i < endL
    case neg =>
      rw [parseBlockF_out lines _ i endL ctr (Nat.not_lt.mp hi),
        parseBlockF_out lines _ i endL ctr (Nat.not_lt.mp hi)]
    case pos =>
      have hnext : endL ≤ (i + 1) + fuel := by omega
      have hjle : findClose lines endL endL (i + 1) 1 ≤ endL :=
        findClose_le lines endL endL (i + 1) 1 (by omega)
      have hjge : i + 1 ≤ findClose lines endL endL (i + 1) 1 :=
        findClose_ge lines endL endL (i + 1) 1
      by_cases hsk : isSkippedLine (trimJS (lines.getD i [])) = true
      · rw [parseBlockF_succ_skipped lines (fuel + 1) i endL ctr hi hsk,
          parseBlockF_succ_skipped lines fuel i endL ctr hi hsk]
        exact ih (i + 1) endL ctr hnext
      · rw [Bool.not_eq_true] at hsk
        rcases hml : matchLog (trimJS (lines.getD i [])) with _ | msg
        · by_cases htm : matchTimeout (trimJS (lines.getD i [])) = true
          · rw [parseBlockF_succ_timeout lines (fuel + 1) i endL ctr hi hsk hml htm,
              parseBlockF_succ_timeout lines fuel i endL ctr hi hsk hml htm,
              ih (i + 1) (findClose lines endL endL (i + 1) 1) ctr (by omega),
              ih (findClose lines endL endL (i + 1) 1 + 1) endL _ (by omega)]
          · rw [Bool.not_eq_true] at htm
            by_cases him : matchImmediate (trimJS (lines.getD i [])) = true
            · rw [parseBlockF_succ_immediate lines (fuel + 1) i endL ctr hi hsk hml htm him,
                parseBlockF_succ_immediate lines fuel i endL ctr hi hsk hml htm him,
                ih (i + 1) (findClose lines endL endL (i + 1) 1) ctr (by omega),
                ih (findClose lines endL endL (i + 1) 1 + 1) endL _ (by omega)]
            · rw [Bool.not_eq_true] at him
              by_cases hmc : matchMicro (trimJS (lines.getD i [])) = true
              · rw [parseBlockF_succ_micro lines (fuel + 1) i endL ctr hi hsk hml htm him hmc,
                  parseBlockF_succ_micro lines fuel i endL ctr hi hsk hml htm him hmc,
                  ih (i + 1) (findClose lines endL endL (i + 1) 1) ctr (by omega),
                  ih (findClose lines endL endL (i + 1) 1 + 1) endL _ (by omega)]
              · rw [Bool.not_eq_true] at hmc
                rw [parseBlockF_succ_nomatch lines (fuel + 1) i endL ctr hi hsk hml htm him hmc,
                  parseBlockF_succ_nomatch lines fuel i endL ctr hi hsk hml htm him hmc]
                exact ih (i + 1) endL ctr hnext
        · rw [parseBlockF_succ_log lines (fuel + 1) i endL ctr msg hi hsk hml,
            parseBlockF_succ_log lines fuel i endL ctr msg hi hsk hml,
            ih (i + 1) endL (ctr + 1) hnext]

/-- Claim C8: parsing is total and best-effort.  (i) Any line that is
blank, a comment, or matched by none of the recognizers produces no task
and no diagnostic — the scan simply advances.  (ii) A callback opener of
*any* form — `setTimeout`, `setImmediate`, or a microtask registration
in any of its three spellings — with no closing line in the scanned
range is silently truncated: its children are parsed from all the
remaining lines and the parse still returns normally.  (iii) The fuel of
the recursion is irrelevant from the range length up, so `parseCode` is
a well-defined total function on every input text. -/
theorem parser_total_skip_truncate (lines : List (List Char)) (fuel i endL ctr : Nat) :
    (i < endL →
      (isSkippedLine (trimJS (lines.getD i [])) = true ∨
        (matchLog (trimJS (lines.getD i [])) = none ∧
          matchTimeout (trimJS (lines.getD i [])) = false ∧
          matchImmediate (trimJS (lines.getD i [])) = false ∧
          matchMicro (trimJS (lines.getD i [])) = false)) →
      parseBlockF lines (fuel + 1) i endL ctr = parseBlockF lines fuel (i + 1) endL ctr) ∧
    (i < endL →
      isSkippedLine (trimJS (lines.getD i [])) = false →
      matchLog (trimJS (lines.getD i [])) = none →
      matchTimeout (trimJS (lines.getD i [])) = true →
      findClose lines endL endL (i + 1) 1 = endL →
      parseBlockF lines (fuel + 1) i endL ctr =
        ([Task.mk (taskIdStr (parseBlockF lines fuel (i + 1) endL ctr).2)
            TaskType.TIMEOUT ("setTimeout")
            (some ((matchDelay (lines.getD endL [])).getD 0))
            (some (parseBlockF lines fuel (i + 1) endL ctr).1) (some (i + 1))],
          (parseBlockF lines fuel (i + 1) endL ctr).2 + 1)) ∧
    (i < endL →
      isSkippedLine (trimJS (lines.getD i [])) = false →
      matchLog (trimJS (lines.getD i [])) = none →
      matchTimeout (trimJS (lines.getD i [])) = false →
      matchImmediate (trimJS (lines.getD i [])) = true →
      findClose lines endL endL (i + 1) 1 = endL →
      parseBlockF lines (fuel + 1) i endL ctr =
        ([Task.mk (taskIdStr (parseBlockF lines fuel (i + 1) endL ctr).2)
            TaskType.TIMEOUT ("setImmediate") (some 0)
            (some (parseBlockF lines fuel (i + 1) endL ctr).1) (some (i + 1))],
          (parseBlockF lines fuel (i + 1) endL ctr).2 + 1)) ∧
    (i < endL →
      isSkippedLine (trimJS (lines.getD i [])) = false →
      matchLog (trimJS (lines.getD i [])) = none →
      matchTimeout (trimJS (lines.getD i [])) = false →
      matchImmediate (trimJS (lines.getD i [])) = false →
      matchMicro (trimJS (lines.getD i [])) = true →
      findClose lines endL endL (i + 1) 1 = endL →
      parseBlockF lines (fuel + 1) i endL ctr =
        ([Task.mk (taskIdStr (parseBlockF lines fuel (i + 1) endL ctr).2)
            TaskType.PROMISE
            (if containsSub (trimJS (lines.getD i [])) ntHead.dropLast
             then ("process.nextTick")
             else if containsSub (trimJS (lines.getD i [])) qmHead.dropLast
             then ("queueMicrotask") else ("Promise.then"))
            none
            (some (parseBlockF lines fuel (i + 1) endL ctr).1) (some (i + 1))],
          (parseBlockF lines fuel (i + 1) endL ctr).2 + 1)) ∧
    (endL ≤ i + fuel →
      parseBlockF lines (fuel + 1) i endL ctr = parseBlockF lines fuel i endL ctr) :=
  ⟨parseBlockF_skip lines fuel i endL ctr,
   parseBlockF_truncate lines fuel i endL ctr,
   parseBlockF_truncate_immediate lines fuel i endL ctr,
   parseBlockF_truncate_micro lines fuel i endL ctr,
   parseBlockF_fuel lines fuel i endL ctr⟩

/-- An unsupported statement amid code (for the C8 witness). -/
def oddLine : List (List Char) := splitLines ("let x = 5;").toList

/-- An unterminated `setTimeout` opener (for the C8 witness). -/
def hangTimeout : List (List Char) := splitLines ("setTimeout(() => \x7b").toList

/-- An unterminated `setImmediate` opener (for the C8 witness). -/
def hangImmediate : List (List Char) := splitLines ("setImmediate(() => \x7b").toList

/-- An unterminated `queueMicrotask` opener (for the C8 witness). -/
def hangMicro : List (List Char) := splitLines ("queueMicrotask(() => \x7b").toList

/-- Claim C8 witness: the theorem applied to a concrete unrecognized
line and to concrete unterminated `setTimeout`, `setImmediate` and
`queueMicrotask` openers. -/
theorem parser_total_skip_truncate_witness :
    (parseBlockF oddLine 1 0 1 0 = parseBlockF oddLine 0 1 1 0) ∧
    (parseBlockF hangTimeout 1 0 1 0 =
      ([Task.mk (taskIdStr (parseBlockF hangTimeout 0 1 1 0).2)
          TaskType.TIMEOUT ("setTimeout")
          (some ((matchDelay (hangTimeout.getD 1 [])).getD 0))
          (some (parseBlockF hangTimeout 0 1 1 0).1) (some 1)],
        (parseBlockF hangTimeout 0 1 1 0).2 + 1)) ∧
    (parseBlockF hangImmediate 1 0 1 0 =
      ([Task.mk (taskIdStr (parseBlockF hangImmediate 0 1 1 0).2)
          TaskType.TIMEOUT ("setImmediate") (some 0)
          (some (parseBlockF hangImmediate 0 1 1 0).1) (some 1)],
        (parseBlockF hangImmediate 0 1 1 0).2 + 1)) ∧
    (parseBlockF hangMicro 1 0 1 0 =
      ([Task.mk (taskIdStr (parseBlockF hangMicro 0 1 1 0).2)
          TaskType.PROMISE
          (if containsSub (trimJS (hangMicro.getD 0 [])) ntHead.dropLast
           then ("process.nextTick")
           else if containsSub (trimJS (hangMicro.getD 0 [])) qmHead.dropLast
           then ("queueMicrotask") else ("Promise.then"))
          none
          (some (parseBlockF hangMicro 0 1 1 0).1) (some 1)],
        (parseBlockF hangMicro 0 1 1 0).2 + 1)) ∧
    (parseBlockF oddLine 2 0 1 0 = parseBlockF oddLine 1 0 1 0) :=
  ⟨(parser_total_skip_truncate oddLine 0 0 1 0).1 (by decide)
      (Or.inr ⟨rfl, rfl, rfl, rfl⟩),
   (parser_total_skip_truncate hangTimeout 0 0 1 0).2.1 (by decide) rfl rfl rfl rfl,
   (parser_total_skip_truncate hangImmediate 0 0 1 0).2.2.1 (by decide) rfl rfl rfl rfl rfl,
   (parser_total_skip_truncate hangMicro 0 0 1 0).2.2.2.1 (by decide) rfl rfl rfl rfl rfl rfl,
   (parser_total_skip_truncate oddLine 1 0 1 0).2.2.2.2 (by decide)⟩

/-! ## The brace-balance scan (claim C6) -/

/-- Number of occurrences of a character in a line. -/
def countCharOcc (l : List Char) (c : Char) : Nat :=
  (l.filter (fun d => d = c)).length

/-- The per-line balance update as claim C6 describes it: incremented
once for *every occurrence* of an open brace and decremented once for
every occurrence of a close brace (a second definition following the
claim's words, to be compared with the source's per-line-containment
update `balLineContain`). -/
def balLineOcc (b : Int) (l : List Char) : Int :=
  b + Int.ofNat (countCharOcc l openBraceC) - Int.ofNat (countCharOcc l closeBraceC)

/-- The body-extraction scan as claim C6 describes it (per-occurrence
counting, stop at the first line where the balance reaches 0). -/
def findCloseOcc (lines : List (List Char)) (endL : Nat) : Nat → Nat → Int → Nat
  | 0, j, _ => j
  | fuel + 1, j, balance =>
    if j < endL then
      let b2 := balLineOcc balance (lines.getD j [])
      if b2 = 0 then j else findCloseOcc lines endL fuel (j + 1) b2
    else j

/-- A program whose second body line holds two open braces. -/
def cex6 : String :=
  "setTimeout(() => \x7b\n\x7b\x7b\n\x7d\n\x7d, 5);\nconsole.log(\x27OUT\x27)"

def cex6Lines : List (List Char) := splitLines cex6.toList

/-- Claim C6 counterexample: on a line containing two open braces the
source scan (`findClose`, which tests mere *containment* of a brace
character per line) increments the balance only once, so it closes the
body at line index 3, while the per-occurrence scan the claim describes
(`findCloseOcc`) never sees the balance reach 0 inside the range and
runs to the range end 5.  Observably, the source parser recovers the
delay `5` from line 3 and parses the final log at top level. -/
theorem brace_scan_occurrence_cex :
    findClose cex6Lines 5 5 1 1 = 3 ∧ findCloseOcc cex6Lines 5 5 1 1 = 5 ∧
      parseCode cex6 =
        [Task.mk ("task-0") TaskType.TIMEOUT ("setTimeout") (some 5) (some []) (some 1),
          Task.mk ("task-1") TaskType.LOG ("OUT") none none (some 5)] ∧
      (3 : Nat) ≠ 5 :=
  ⟨rfl, rfl, rfl, by decide⟩

/-- Cumulative per-line-containment balance: the balance after processing
`n` lines starting at index `j` from balance `b`, each line updating the
balance by `balLineContain` (once per line containing an open brace, once
per line containing a close brace). -/
def balRun (lines : List (List Char)) : Int → Nat → Nat → Int
  | b, _, 0 => b
  | b, j, n + 1 => balRun lines (balLineContain b (lines.getD j [])) (j + 1) n

/-- Claim C6 (amended): for every callback-opening line, the
body-extraction scan maintains a brace-balance counter that is
incremented once per subsequent line *containing* an open-brace
character and decremented once per line *containing* a close-brace
character (per-line containment, not per-occurrence counting: a line
with two close braces still decrements the balance only once), and the
body ends at the first line where this balance reaches 0, or at the
range end if no such line exists. -/
theorem brace_scan_contain_spec (lines : List (List Char)) (endL : Nat) :
    ∀ fuel j (b : Int), endL ≤ j + fuel → j ≤ endL →
      (findClose lines endL fuel j b < endL ∧
        balRun lines b j (findClose lines endL fuel j b + 1 - j) = 0 ∧
        (∀ k, j ≤ k → k < findClose lines endL fuel j b →
          balRun lines b j (k + 1 - j) ≠ 0)) ∨
      (findClose lines endL fuel j b = endL ∧
        ∀ k, j ≤ k → k < endL → balRun lines b j (k + 1 - j) ≠ 0) := by
  intro fuel
  induction fuel with
  | zero =>
    intro j b hle hj
    have hje : j = endL := by omega
    right
    subst hje
    exact ⟨rfl, fun k hk1 hk2 => absurd hk2 (by omega)⟩
  | succ fuel ih =>
    intro j b hle hj
    by_cases hjl : j < endL
    case neg =>
      have hje : j = endL := by omega
      right
      constructor
      · simp only [findClose]
        rw [if_neg hjl]
        exact hje
      · intro k hk1 hk2
        exact absurd hk2 (by omega)
    case pos =>
      have hbal1 : balRun lines b j 1 = balLineContain b (lines.getD j []) := rfl
      by_cases hb : balLineContain b (lines.getD j []) = 0
      · have hfc : findClose lines endL (fuel + 1) j b = j := by
          simp only [findClose]
          rw [if_pos hjl, if_pos hb]
        left
        rw [hfc]
        refine ⟨hjl, ?_, ?_⟩
        · have h1 : j + 1 - j = 1 := by omega
          rw [h1, hbal1]
          exact hb
        · intro k hk1 hk2
          exact absurd hk2 (by omega)
      · have hfc : findClose lines endL (fuel + 1) j b
            = findClose lines endL fuel (j + 1) (balLineContain b (lines.getD j [])) := by
          simp only [findClose]
          rw [if_pos hjl, if_neg hb]
        have hrw : ∀ k, j ≤ k → balRun lines b j (k + 1 - j)
            = balRun lines (balLineContain b (lines.getD j [])) (j + 1) (k - j) := by
          intro k hk
          have h1 : k + 1 - j = (k - j) + 1 := by omega
          rw [h1]
          rfl
        have hge : j + 1 ≤ findClose lines endL fuel (j + 1)
            (balLineContain b (lines.getD j [])) :=
          findClose_ge lines endL fuel (j + 1) _
        rcases ih (j + 1) (balLineContain b (lines.getD j [])) (by omega) (by omega)
          with ⟨h1, h2, h3⟩ | ⟨h1, h2⟩
        · left
          rw [hfc]
          refine ⟨h1, ?_, ?_⟩
          · rw [hrw _ (by omega)]
            have he : findClose lines endL fuel (j + 1) (balLineContain b (lines.getD j [])) - j
                = findClose lines endL fuel (j + 1) (balLineContain b (lines.getD j [])) + 1
                  - (j + 1) := by omega
            rw [he]
            exact h2
          · intro k hk1 hk2
            by_cases hkj : k = j
            · subst hkj
              have he : k + 1 - k = 1 := by omega
              rw [he, hbal1]
              exact hb
            · have hk1' : j + 1 ≤ k := by omega
              rw [hrw _ hk1]
              have he : k - j = k + 1 - (j + 1) := by omega
              rw [he]
              exact h3 k hk1' hk2
        · right
          rw [hfc]
          refine ⟨h1, ?_⟩
          intro k hk1 hk2
          by_cases hkj : k = j
          · subst hkj
            have he : k + 1 - k = 1 := by omega
            rw [he, hbal1]
            exact hb
          · have hk1' : j + 1 ≤ k := by omega
            rw [hrw _ hk1]
            have he : k - j = k + 1 - (j + 1) := by omega
            rw [he]
            exact h2 k hk1' hk2

/-- Claim C6 witness: the amended characterization applied to the scan
of the concrete program `cex6` (the scan closes at line 3 with the
containment balance reaching 0 there and nowhere earlier). -/
theorem brace_scan_contain_spec_witness :
    (findClose cex6Lines 5 5 1 1 < 5 ∧
      balRun cex6Lines 1 1 (findClose cex6Lines 5 5 1 1 + 1 - 1) = 0 ∧
      (∀ k, 1 ≤ k → k < findClose cex6Lines 5 5 1 1 →
        balRun cex6Lines 1 1 (k + 1 - 1) ≠ 0)) ∨
    (findClose cex6Lines 5 5 1 1 = 5 ∧
      ∀ k, 1 ≤ k → k < 5 → balRun cex6Lines 1 1 (k + 1 - 1) ≠ 0) :=
  brace_scan_contain_spec cex6Lines 5 5 1 1 (by decide) (by decide)

/-! ## Scenario B (claim C1): every interleaving of steps and ticks -/

/-- The three microtask-registration spellings. -/
inductive Spelling where
  | promiseThen
  | queueMicro
  | nextTick

/-- The registration line of each spelling. -/
def spellingLine : Spelling → String
  | .promiseThen => "Promise.resolve().then(() => \x7b"
  | .queueMicro => "queueMicrotask(() => \x7b"
  | .nextTick => "process.nextTick(() => \x7b"

/-- The parse-time display label of each spelling. -/
def spellLabel : Spelling → String
  | .promiseThen => "Promise.then"
  | .queueMicro => "queueMicrotask"
  | .nextTick => "process.nextTick"

/-- The Scenario B source: log `'A'`; a zero-delay timer logging `'B'`;
a microtask (the given spelling) logging `'C'`; log `'D'`. -/
def scenarioBCode (sp : Spelling) : String :=
  "console.log(\x27A\x27);\nsetTimeout(() => \x7b\n  console.log(\x27B\x27);\n\x7d, 0);\n"
    ++ spellingLine sp
    ++ "\n  console.log(\x27C\x27);\n\x7d);\nconsole.log(\x27D\x27);"

def tA : Task := Task.mk ("task-0") TaskType.LOG ("A") none none (some 1)

def tB : Task := Task.mk ("task-1") TaskType.LOG ("B") none none (some 3)

def tT : Task := Task.mk ("task-2") TaskType.TIMEOUT ("setTimeout") (some 0) (some [tB]) (some 2)

def tC : Task := Task.mk ("task-3") TaskType.LOG ("C") none none (some 6)

def tP (pc : String) : Task := Task.mk ("task-4") TaskType.PROMISE pc none (some [tC]) (some 5)

def tD : Task := Task.mk ("task-5") TaskType.LOG ("D") none none (some 8)

/-- The top-level Task Tree of Scenario B (with the microtask
registration's parse label `pc`). -/
def scenTasks (pc : String) : List Task := [tA, tT, tP pc, tD]

/-- The `main()` frame of Scenario B at cursor `c`. -/
def mainFrame (pc : String) (c : Nat) : CallStackFrame :=
  ⟨("main"), ("main()"), TaskType.MAIN, scenTasks pc, c, some 0⟩

/-- The label `step` puts on the enqueued microtask entry. -/
def mLabel (pc : String) : String :=
  if pc = ("process.nextTick") then ("process.nextTick") else ("Promise Callback")

/-- The microtask-queue entry created by executing the registration. -/
def microEntry (pc fid : String) : Task :=
  Task.mk fid TaskType.PROMISE (mLabel pc) none (some [tC]) (some 5)

/-- The frame executing the microtask callback at cursor `c`. -/
def pFrame (pc fid : String) (c : Nat) : CallStackFrame :=
  ⟨fid, mLabel pc, TaskType.PROMISE, [tC], c, some 5⟩

/-- The pending-set entry of the zero-delay timer (registered at
`Date.now() = t`). -/
def apiEntry (t : Nat) : WebApiTask := ⟨tT, t, Int.ofNat (tT.delay.getD 0)⟩

/-- The timer after promotion into the macrotask queue. -/
def tTdone : Task :=
  Task.mk ("task-2") TaskType.TIMEOUT ("Timeout Callback") (some 0) (some [tB]) (some 2)

/-- The frame executing the timer callback at cursor `c`. -/
def bFrame (c : Nat) : CallStackFrame :=
  ⟨("task-2"), ("setTimeout"), TaskType.TIMEOUT, [tB], c, some 2⟩

/-- An engine state with the six scheduling components fixed and the
frame fields (`code`, `parsedTasks`, `isRunning`, `speed`, `activeLine`)
free. -/
def stBase (code : String) (pts : List Task) (run : Bool) (speed : Nat)
    (al : Option Nat) (cs : List CallStackFrame) (wa : List WebApiTask)
    (mi ma : List Task) (out : List String) (fin : Bool) : EngineState :=
  ⟨code, pts, cs, wa, mi, ma, out, run, speed, fin, al⟩

/-- The reachable states of Scenario B, closed under both `stepE` (with
arbitrary oracle values) and `tick`.  The `a`/`b` pairs differ in
whether the zero-delay timer is still in the pending set or has been
promoted to the macrotask queue. -/
inductive InvB (pc : String) : EngineState → Prop where
  | d0 (code : String) (pts : List Task) (run : Bool) (speed : Nat) (al : Option Nat) :
      InvB pc (stBase code pts run speed al [mainFrame pc 0] [] [] [] [] false)
  | d1 (code : String) (pts : List Task) (run : Bool) (speed : Nat) (al : Option Nat) :
      InvB pc (stBase code pts run speed al [mainFrame pc 1] [] [] [] [("A")] false)
  | d2a (code : String) (pts : List Task) (run : Bool) (speed : Nat) (al : Option Nat)
      (t : Nat) :
      InvB pc (stBase code pts run speed al [mainFrame pc 2] [apiEntry t] [] []
        [("A")] false)
  | d2b (code : String) (pts : List Task) (run : Bool) (speed : Nat) (al : Option Nat) :
      InvB pc (stBase code pts run speed al [mainFrame pc 2] [] [] [tTdone]
        [("A")] false)
  | d3a (code : String) (pts : List Task) (run : Bool) (speed : Nat) (al : Option Nat)
      (t : Nat) (fid : String) :
      InvB pc (stBase code pts run speed al [mainFrame pc 3] [apiEntry t]
        [microEntry pc fid] [] [("A")] false)
  | d3b (code : String) (pts : List Task) (run : Bool) (speed : Nat) (al : Option Nat)
      (fid : String) :
      InvB pc (stBase code pts run speed al [mainFrame pc 3] []
        [microEntry pc fid] [tTdone] [("A")] false)
  | d4a (code : String) (pts : List Task) (run : Bool) (speed : Nat) (al : Option Nat)
      (t : Nat) (fid : String) :
      InvB pc (stBase code pts run speed al [mainFrame pc 4] [apiEntry t]
        [microEntry pc fid] [] [("A"), ("D")] false)
  | d4b (code : String) (pts : List Task) (run : Bool) (speed : Nat) (al : Option Nat)
      (fid : String) :
      InvB pc (stBase code pts run speed al [mainFrame pc 4] []
        [microEntry pc fid] [tTdone] [("A"), ("D")] false)
  | d5a (code : String) (pts : List Task) (run : Bool) (speed : Nat) (al : Option Nat)
      (t : Nat) (fid : String) :
      InvB pc (stBase code pts run speed al [] [apiEntry t]
        [microEntry pc fid] [] [("A"), ("D")] false)
  | d5b (code : String) (pts : List Task) (run : Bool) (speed : Nat) (al : Option Nat)
      (fid : String) :
      InvB pc (stBase code pts run speed al [] []
        [microEntry pc fid] [tTdone] [("A"), ("D")] false)
  | d6a (code : String) (pts : List Task) (run : Bool) (speed : Nat) (al : Option Nat)
      (t : Nat) (fid : String) :
      InvB pc (stBase code pts run speed al [pFrame pc fid 0] [apiEntry t] [] []
        [("A"), ("D")] false)
  | d6b (code : String) (pts : List Task) (run : Bool) (speed : Nat) (al : Option Nat)
      (fid : String) :
      InvB pc (stBase code pts run speed al [pFrame pc fid 0] [] [] [tTdone]
        [("A"), ("D")] false)
  | d7a (code : String) (pts : List Task) (run : Bool) (speed : Nat) (al : Option Nat)
      (t : Nat) (fid : String) :
      InvB pc (stBase code pts run speed al [pFrame pc fid 1] [apiEntry t] [] []
        [("A"), ("D"), ("C")] false)
  | d7b (code : String) (pts : List Task) (run : Bool) (speed : Nat) (al : Option Nat)
      (fid : String) :
      InvB pc (stBase code pts run speed al [pFrame pc fid 1] [] [] [tTdone]
        [("A"), ("D"), ("C")] false)
  | d8a (code : String) (pts : List Task) (run : Bool) (speed : Nat) (al : Option Nat)
      (t : Nat) :
      InvB pc (stBase code pts run speed al [] [apiEntry t] [] []
        [("A"), ("D"), ("C")] false)
  | d8b (code : String) (pts : List Task) (run : Bool) (speed : Nat) (al : Option Nat) :
      InvB pc (stBase code pts run speed al [] [] [] [tTdone]
        [("A"), ("D"), ("C")] false)
  | d10 (code : String) (pts : List Task) (run : Bool) (speed : Nat) (al : Option Nat) :
      InvB pc (stBase code pts run speed al [bFrame 0] [] [] []
        [("A"), ("D"), ("C")] false)
  | d11 (code : String) (pts : List Task) (run : Bool) (speed : Nat) (al : Option Nat) :
      InvB pc (stBase code pts run speed al [bFrame 1] [] [] []
        [("A"), ("D"), ("C"), ("B")] false)
  | d12 (code : String) (pts : List Task) (run : Bool) (speed : Nat) (al : Option Nat) :
      InvB pc (stBase code pts run speed al [] [] [] []
        [("A"), ("D"), ("C"), ("B")] false)
  | d13 (code : String) (pts : List Task) (run : Bool) (speed : Nat) (al : Option Nat) :
      InvB pc (stBase code pts run speed al [] [] [] []
        [("A"), ("D"), ("C"), ("B")] true)

/-- The invariant is preserved by every `step()` call, whatever the
oracle values. -/
theorem invB_step (pc : String) (fid : String) (now : Nat) (s : EngineState)
    (h : InvB pc s) : InvB pc (stepE fid now s) := by
  cases h with
  | d0 code pts run speed al => exact InvB.d1 code pts run speed (some 1)
  | d1 code pts run speed al => exact InvB.d2a code pts run speed (some 2) now
  | d2a code pts run speed al t => exact InvB.d3a code pts run speed (some 5) t fid
  | d2b code pts run speed al => exact InvB.d3b code pts run speed (some 5) fid
  | d3a code pts run speed al t f => exact InvB.d4a code pts run speed (some 8) t f
  | d3b code pts run speed al f => exact InvB.d4b code pts run speed (some 8) f
  | d4a code pts run speed al t f => exact InvB.d5a code pts run speed none t f
  | d4b code pts run speed al f => exact InvB.d5b code pts run speed none f
  | d5a code pts run speed al t f => exact InvB.d6a code pts run speed (some 5) t f
  | d5b code pts run speed al f => exact InvB.d6b code pts run speed (some 5) f
  | d6a code pts run speed al t f => exact InvB.d7a code pts run speed (some 6) t f
  | d6b code pts run speed al f => exact InvB.d7b code pts run speed (some 6) f
  | d7a code pts run speed al t f => exact InvB.d8a code pts run speed none t
  | d7b code pts run speed al f => exact InvB.d8b code pts run speed none
  | d8a code pts run speed al t => exact InvB.d8a code pts run speed al t
  | d8b code pts run speed al => exact InvB.d10 code pts run speed (some 2)
  | d10 code pts run speed al => exact InvB.d11 code pts run speed (some 3)
  | d11 code pts run speed al => exact InvB.d12 code pts run speed none
  | d12 code pts run speed al => exact InvB.d13 code pts false speed none
  | d13 code pts run speed al => exact InvB.d13 code pts false speed none

/-- The invariant is preserved by every timer tick. -/
theorem invB_tick (pc : String) (s : EngineState) (h : InvB pc s) :
    InvB pc (tick s) := by
  cases h with
  | d0 code pts run speed al => exact InvB.d0 code pts run speed al
  | d1 code pts run speed al => exact InvB.d1 code pts run speed al
  | d2a code pts run speed al t => exact InvB.d2b code pts run speed al
  | d2b code pts run speed al => exact InvB.d2b code pts run speed al
  | d3a code pts run speed al t f => exact InvB.d3b code pts run speed al f
  | d3b code pts run speed al f => exact InvB.d3b code pts run speed al f
  | d4a code pts run speed al t f => exact InvB.d4b code pts run speed al f
  | d4b code pts run speed al f => exact InvB.d4b code pts run speed al f
  | d5a code pts run speed al t f => exact InvB.d5b code pts run speed al f
  | d5b code pts run speed al f => exact InvB.d5b code pts run speed al f
  | d6a code pts run speed al t f => exact InvB.d6b code pts run speed al f
  | d6b code pts run speed al f => exact InvB.d6b code pts run speed al f
  | d7a code pts run speed al t f => exact InvB.d7b code pts run speed al f
  | d7b code pts run speed al f => exact InvB.d7b code pts run speed al f
  | d8a code pts run speed al t => exact InvB.d8b code pts run speed al
  | d8b code pts run speed al => exact InvB.d8b code pts run speed al
  | d10 code pts run speed al => exact InvB.d10 code pts run speed al
  | d11 code pts run speed al => exact InvB.d11 code pts run speed al
  | d12 code pts run speed al => exact InvB.d12 code pts run speed al
  | d13 code pts run speed al => exact InvB.d13 code pts run speed al

/-- The freshly reset engine on the Scenario B source is in the
invariant (the parse evaluates to the concrete Task Tree `scenTasks`). -/
theorem invB_init (sp : Spelling) :
    InvB (spellLabel sp) (resetEngine (scenarioBCode sp) false) := by
  cases sp with
  | promiseThen =>
    exact InvB.d0 (scenarioBCode Spelling.promiseThen)
      (parseCode (scenarioBCode Spelling.promiseThen)) false 1000 none
  | queueMicro =>
    exact InvB.d0 (scenarioBCode Spelling.queueMicro)
      (parseCode (scenarioBCode Spelling.queueMicro)) false 1000 none
  | nextTick =>
    exact InvB.d0 (scenarioBCode Spelling.nextTick)
      (parseCode (scenarioBCode Spelling.nextTick)) false 1000 none

/-- Closure of the invariant under an arbitrary event sequence. -/
theorem invB_run (pc : String) (evs : List Ev) :
    ∀ s, InvB pc s → InvB pc (runEvents s evs) := by
  induction evs with
  | nil => intro s h; exact h
  | cons e rest ih =>
    intro s h
    cases e with
    | estep fid now => exact ih _ (invB_step pc fid now s h)
    | etick => exact ih _ (invB_tick pc s h)

/-- Inside the invariant, a finished state has output exactly
`["A", "D", "C", "B"]`. -/
theorem invB_finished (pc : String) (s : EngineState) (h : InvB pc s)
    (hf : s.isFinished = true) : s.consoleOutput = [("A"), ("D"), ("C"), ("B")] := by
  cases h <;> first | exact Bool.noConfusion hf | rfl

/-- Claim C1: for the Scenario B source (with any of the three microtask
spellings), every interleaving of `step()` calls (with arbitrary
`Date.now()` and microtask-id oracle values) and timer-advancer ticks
that reaches the finished state has final output exactly
`["A", "D", "C", "B"]`. -/
theorem scenarioB_output (sp : Spelling) (evs : List Ev)
    (hf : (runEvents (resetEngine (scenarioBCode sp) false) evs).isFinished = true) :
    (runEvents (resetEngine (scenarioBCode sp) false) evs).consoleOutput
      = [("A"), ("D"), ("C"), ("B")] :=
  invB_finished (spellLabel sp) _
    (invB_run (spellLabel sp) evs _ (invB_init sp)) hf

def stepW : Ev := Ev.estep ("w1") 3

/-- A concrete finishing interleaving: drain `main`, run the microtask,
tick once to promote the timer, run it, and take the final finishing
step. -/
def evsB : List Ev :=
  [stepW, stepW, stepW, stepW, stepW, stepW, stepW, stepW, Ev.etick,
    stepW, stepW, stepW, stepW]

/-- Claim C1 witness: the theorem applied to the `Promise.resolve().then`
spelling and the concrete interleaving `evsB`. -/
theorem scenarioB_output_witness :
    (runEvents (resetEngine (scenarioBCode Spelling.promiseThen) false) evsB).consoleOutput
      = [("A"), ("D"), ("C"), ("B")] :=
  scenarioB_output Spelling.promiseThen evsB rfl

end ELV
